import Mathlib

/-!
Verification of the ops-butler Task Orchestration Engine against its
natural-language specification.

Shallow embedding of the Go sources:
  internal/models/models.go          (TaskState, ReminderState, entities)
  internal/database/task_repository.go      (ListDue, GetByID, Update)
  internal/database/reminder_repository.go  (ListPending, ListByTaskID, Update)
  internal/scheduler/scheduler.go    (checkDueTasks, createReminder,
                                      checkDueReminders, sendReminder,
                                      ScheduleTask, CancelTask)
  internal/agent/agent.go            (ExecuteTask, CancelTask, task registry)

Time is modelled as Nat. The database is modelled as in-memory lists; GORM
Save on a fetched record is modelled as replacement of the row with the
matching primary key. Only the fields that the verified properties touch
are embedded; all definitions are computable.
-/

/-- TaskState from models.go. -/
inductive TaskState where
  | pending
  | scheduled
  | running
  | completed
  | failed
  | cancelled
deriving DecidableEq, Repr

/-- ReminderState from models.go. -/
inductive ReminderState where
  | pending
  | delivered
  | actioned
  | cancelled
deriving DecidableEq, Repr

/-- TaskInstance from models.go, restricted to the fields the scheduler
reads and writes: primary key, state, and the optional due time. -/
structure TaskInstance where
  id : Nat
  state : TaskState
  dueAt : Option Nat
deriving DecidableEq, Repr

/-- Reminder from models.go, restricted to the fields the scheduler reads
and writes: primary key, owning task, delivery time, state, and the
cancellation timestamp. -/
structure Reminder where
  id : Nat
  taskId : Nat
  chatAt : Nat
  state : ReminderState
  cancelledAt : Option Nat
deriving DecidableEq, Repr

/-- Effective limit of the repository list queries: task_repository.go and
reminder_repository.go substitute the default limit 10 whenever the caller
passes limit at most 0. -/
def effLimit (limit : Int) : Nat :=
  if limit ≤ 0 then 10 else limit.toNat

/-- Effective offset of the repository list queries: a negative offset is
clamped to 0. -/
def effOffset (offset : Int) : Nat :=
  if offset < 0 then 0 else offset.toNat

/-- SQL condition of GormTaskRepository.ListDue on the due_at column:
due_at less than or equal to now. A NULL due_at never satisfies the SQL
comparison. -/
def dueAtElapsed (dueAt : Option Nat) (now : Nat) : Bool :=
  match dueAt with
  | some d => decide (d ≤ now)
  | none => false

/-- Row filter of GormTaskRepository.ListDue: state equals pending and
due_at has elapsed. -/
def isDuePending (now : Nat) (t : TaskInstance) : Bool :=
  decide (t.state = TaskState.pending) && dueAtElapsed t.dueAt now

/-- GormTaskRepository.ListDue: select tasks with state pending and
due_at at most now, then apply the clamped offset and limit. -/
def listDue (tasks : List TaskInstance) (now : Nat) (offset limit : Int) :
    List TaskInstance :=
  (((tasks.filter (isDuePending now)).drop (effOffset offset)).take (effLimit limit))

/-- GormTaskRepository.GetByID: an id of 0 is rejected (ErrInvalidID);
otherwise the row with that primary key is fetched. -/
def getTaskByID (tasks : List TaskInstance) (id : Nat) : Option TaskInstance :=
  if id = 0 then none else tasks.find? (fun t => t.id = id)

/-- GormTaskRepository.Update: GORM Save replaces the row whose primary key
matches the given record. -/
def taskUpdate (tasks : List TaskInstance) (t : TaskInstance) : List TaskInstance :=
  tasks.map (fun t0 => if t0.id = t.id then t else t0)

/-- Insertion of a reminder into a list sorted by chat_at ascending. -/
def insertByChatAt (r : Reminder) : List Reminder → List Reminder
  | [] => [r]
  | x :: xs => if r.chatAt ≤ x.chatAt then r :: x :: xs else x :: insertByChatAt r xs

/-- Stable sort by chat_at ascending, modelling the ORDER BY chat_at clause
of GormReminderRepository.ListPending. -/
def sortByChatAt : List Reminder → List Reminder
  | [] => []
  | x :: xs => insertByChatAt x (sortByChatAt xs)

/-- GormReminderRepository.ListPending: select reminders in state pending,
order by chat_at ascending, then apply the clamped offset and limit. -/
def listPending (reminders : List Reminder) (offset limit : Int) : List Reminder :=
  ((sortByChatAt (reminders.filter (fun r => decide (r.state = ReminderState.pending)))).drop
      (effOffset offset)).take (effLimit limit)

/-- GormReminderRepository.ListByTaskID: select the reminders of one task. -/
def listByTaskID (reminders : List Reminder) (taskID : Nat) : List Reminder :=
  reminders.filter (fun r => decide (r.taskId = taskID))

/-- GormReminderRepository.Update: GORM Save replaces the row whose primary
key matches the given record. -/
def reminderUpdate (reminders : List Reminder) (r : Reminder) : List Reminder :=
  reminders.map (fun r0 => if r0.id = r.id then r else r0)

/-- State of the scheduler world: the persisted tasks and reminders, the
next primary key the database will assign to a created reminder, and an
observation log of the ChatOps collaborator. Each entry of chatCalls would
record the reminder id of one SendReminderMessage invocation; sendReminder
in scheduler.go contains only a TODO comment in place of that invocation,
so no scheduler operation appends to the list. -/
structure SchedState where
  tasks : List TaskInstance
  reminders : List Reminder
  nextReminderId : Nat
  chatCalls : List Nat
deriving DecidableEq, Repr

/-- Scheduler.createReminder from scheduler.go: insert a new Reminder with
state pending and chat_at set to now, then save the fetched task snapshot
with its state set to scheduled. -/
def createReminder (now : Nat) (s : SchedState) (task : TaskInstance) : SchedState :=
  let r : Reminder :=
    { id := s.nextReminderId
      taskId := task.id
      chatAt := now
      state := ReminderState.pending
      cancelledAt := none }
  { s with
    reminders := s.reminders ++ [r]
    nextReminderId := s.nextReminderId + 1
    tasks := taskUpdate s.tasks { task with state := TaskState.scheduled } }

/-- Scheduler.checkDueTasks from scheduler.go: fetch one batch of due
pending tasks (offset 0, limit MaxConcurrentTasks) and create a reminder
for each fetched snapshot in order. -/
def checkDueTasks (s : SchedState) (now : Nat) (maxConcurrentTasks : Int) : SchedState :=
  (listDue s.tasks now 0 maxConcurrentTasks).foldl (createReminder now) s

/-- Scheduler.sendReminder from scheduler.go: the body that would deliver
the interactive chat message is a TODO comment; the reminder is saved with
state delivered and nothing is sent to the ChatOps collaborator, so
chatCalls is left unchanged. -/
def sendReminder (s : SchedState) (r : Reminder) : SchedState :=
  { s with reminders := reminderUpdate s.reminders { r with state := ReminderState.delivered } }

/-- Scheduler.checkDueReminders from scheduler.go: fetch one batch of
pending reminders ordered by chat_at (offset 0, limit MaxConcurrentTasks),
skip any whose chat_at is still in the future, and send the rest. -/
def checkDueReminders (s : SchedState) (now : Nat) (maxConcurrentTasks : Int) : SchedState :=
  (listPending s.reminders 0 maxConcurrentTasks).foldl
    (fun acc r => if now < r.chatAt then acc else sendReminder acc r) s

/-- Scheduler.ScheduleTask from scheduler.go: fetch the task, set its
due_at and reset its state to pending, and save it. Fails when the task is
not found. -/
def scheduleTask (s : SchedState) (taskID : Nat) (dueAt : Nat) : Option SchedState :=
  match getTaskByID s.tasks taskID with
  | none => none
  | some task =>
    some { s with
      tasks := taskUpdate s.tasks { task with dueAt := some dueAt, state := TaskState.pending } }

/-- Scheduler.CancelTask from scheduler.go: fetch the task, save it with
state cancelled (no check of the current state), then walk the reminders of
the task and save every reminder whose state is pending with state
cancelled and the cancellation timestamp set to now. Reminders in any other
state, delivered included, are left untouched. -/
def schedCancelTask (s : SchedState) (now : Nat) (taskID : Nat) : Option SchedState :=
  match getTaskByID s.tasks taskID with
  | none => none
  | some task =>
    let tasks1 := taskUpdate s.tasks { task with state := TaskState.cancelled }
    let reminders1 :=
      (listByTaskID s.reminders taskID).foldl
        (fun acc r =>
          if r.state = ReminderState.pending then
            reminderUpdate acc
              { r with state := ReminderState.cancelled, cancelledAt := some now }
          else acc)
        s.reminders
    some { s with tasks := tasks1, reminders := reminders1 }

/-- Task record of the agent in-memory registry, from agent.go. The Go
record stores a context.CancelFunc; hasCancel models whether a handle is
stored and cancelFired models whether it has been triggered. -/
structure AgentTask where
  id : String
  script : String
  params : List (String × String)
  status : String
  startTime : Nat
  endTime : Option Nat
  exitCode : Int
  error : String
  hasCancel : Bool
  cancelFired : Bool
deriving DecidableEq, Repr

/-- The agent task registry: the Go map from task identifier to task
record, modelled as an association list with unique keys. -/
abbrev Registry := List (String × AgentTask)

/-- Lookup in the registry map. -/
def regLookup (reg : Registry) (taskID : String) : Option AgentTask :=
  match (List.find? (fun p => p.1 = taskID) reg) with
  | some p => some p.2
  | none => none

/-- Map assignment a.tasks[taskID] = task: replace the record under an
existing key, otherwise add the key. -/
def regInsert (reg : Registry) (taskID : String) (t : AgentTask) : Registry :=
  if (List.find? (fun p => p.1 = taskID) reg).isSome then
    List.map (fun p => if p.1 = taskID then (taskID, t) else p) reg
  else reg ++ [(taskID, t)]

/-- Agent.ExecuteTask from agent.go, synchronous part: build a fresh record
with status running and a stored cancellation handle and assign it into the
registry under taskID. The source performs no duplicate-dispatch check: a
record already present under taskID, running or not, is overwritten, and
the function returns nil (ok). timeoutSeconds only configures the deadline
of the execution context. -/
def executeTask (reg : Registry) (taskID script : String)
    (params : List (String × String)) (timeoutSeconds : Int) (now : Nat) :
    Except String Registry :=
  let task : AgentTask :=
    { id := taskID
      script := script
      params := params
      status := "running"
      startTime := now
      endTime := none
      exitCode := 0
      error := ""
      hasCancel := true
      cancelFired := false }
  Except.ok (regInsert reg taskID task)

/-- Environment of one run of the asynchronous body of Agent.ExecuteTask:
which infrastructure step fails (with the formatted cause), and the result
of cmd.Wait when the process was started. waitErr none models a nil error
from Wait (exit code 0); some (some c) models an exec.ExitError carrying
exit code c; some none models any other Wait error (treated as exit code
1 by the source). -/
structure ExecEnv where
  mkdirErr : Option String
  writeErr : Option String
  stdoutPipeErr : Option String
  stderrPipeErr : Option String
  startErr : Option String
  waitErr : Option (Option Int)
deriving DecidableEq, Repr

/-- Observable outcome of one run of the asynchronous body of
Agent.ExecuteTask: the final task record, whether the per-task working
directory was created, and whether it was removed. -/
structure ExecOutcome where
  task : AgentTask
  dirCreated : Bool
  dirRemoved : Bool
deriving DecidableEq, Repr

/-- Failure bookkeeping shared by every early-return branch of the
asynchronous body in agent.go: status failed, end time recorded, exit code
1, and the formatted infrastructure error message. -/
def failTask (t : AgentTask) (endNow : Nat) (msg : String) : AgentTask :=
  { t with
    status := "failed"
    endTime := some endNow
    exitCode := 1
    error := msg }

/-- Exit code computation after cmd.Wait in agent.go: nil error means 0, an
exec.ExitError contributes its exit code, any other error becomes 1. -/
def waitExitCode (waitErr : Option (Option Int)) : Int :=
  match waitErr with
  | none => 0
  | some (some c) => c
  | some none => 1

/-- Asynchronous body of Agent.ExecuteTask from agent.go, as a function of
the execution environment. Branches in source order: MkdirAll, WriteFile,
StdoutPipe, StderrPipe, Start, then Wait. Every early return leaves the
working directory in place; only the final path, reached when the process
was started, runs os.RemoveAll on the directory. -/
def runTaskBody (t : AgentTask) (env : ExecEnv) (endNow : Nat) : ExecOutcome :=
  match env.mkdirErr with
  | some e =>
    { task := failTask t endNow ("Failed to create temp directory: " ++ e)
      dirCreated := false
      dirRemoved := false }
  | none =>
    match env.writeErr with
    | some e =>
      { task := failTask t endNow ("Failed to write script file: " ++ e)
        dirCreated := true
        dirRemoved := false }
    | none =>
      match env.stdoutPipeErr with
      | some e =>
        { task := failTask t endNow ("Failed to create stdout pipe: " ++ e)
          dirCreated := true
          dirRemoved := false }
      | none =>
        match env.stderrPipeErr with
        | some e =>
          { task := failTask t endNow ("Failed to create stderr pipe: " ++ e)
            dirCreated := true
            dirRemoved := false }
        | none =>
          match env.startErr with
          | some e =>
            { task := failTask t endNow ("Failed to start command: " ++ e)
              dirCreated := true
              dirRemoved := false }
          | none =>
            let exitCode := waitExitCode env.waitErr
            let done :=
              { t with
                status := "completed"
                endTime := some endNow
                exitCode := exitCode }
            let final :=
              if exitCode ≠ 0 then
                { done with
                  status := "failed"
                  error := "Command exited with code " ++ toString exitCode }
              else done
            { task := final, dirCreated := true, dirRemoved := true }

/-- Agent.CancelTask from agent.go: a missing record or a record whose
status is not running is an error and the registry is untouched; otherwise
the stored cancellation handle is triggered when present, and the record is
set to status cancelled with an end time and the cancelled-by-user error
string, without waiting for the process to exit. -/
def agentCancelTask (reg : Registry) (taskID : String) (now : Nat) :
    Except String Unit × Registry :=
  match regLookup reg taskID with
  | none => (Except.error ("task not found: " ++ taskID), reg)
  | some t =>
    if t.status ≠ "running" then
      (Except.error ("task is not running: " ++ taskID), reg)
    else
      let t1 :=
        { t with
          cancelFired := if t.hasCancel then true else t.cancelFired
          status := "cancelled"
          endTime := some now
          error := "Task cancelled by user" }
      (Except.ok (), regInsert reg taskID t1)

/-- One streamed execution-log chunk: payload and assigned sequence number
(ExecuteTaskResponse.sequence in api/proto/agent.proto). -/
structure LogChunk where
  seq : Nat
  payload : String
deriving DecidableEq, Repr

/-- Modelled from the spec: the log-chunk streaming of the agent is absent
from the sources under src — agent.go reads the whole stdout and stderr
and only logs them, with a TODO comment in place of the streaming RPC, and
only the declaration of the sequence field exists in
api/proto/agent.proto. Per the spec, each chunk captured during one
execution attempt is assigned the next sequence number for that task,
starting at 0. -/
def streamChunks (seq : Nat) : List String → List LogChunk
  | [] => []
  | c :: cs => { seq := seq, payload := c } :: streamChunks (seq + 1) cs

/-! Helper lemmas shared by the claim theorems. -/

/-- The sequence numbers produced by streamChunks from a given counter form
a contiguous run. -/
theorem streamChunks_map_seq (n : Nat) (cs : List String) :
    (streamChunks n cs).map LogChunk.seq = List.range' n cs.length := by
  induction cs generalizing n with
  | nil => rfl
  | cons c cs ih => simp [streamChunks, List.range', ih]

/-- Two string appends whose left parts start with different characters are
different strings. -/
theorem string_append_ne_of_head (a b x y : String) (c1 c2 : Char)
    (l1 l2 : List Char) (ha : a.data = c1 :: l1) (hb : b.data = c2 :: l2)
    (hne : c1 ≠ c2) : (a ++ x) ≠ (b ++ y) := by
  intro h
  have h2 := congrArg String.data h
  rw [String.data_append, String.data_append, ha, hb] at h2
  simp only [List.cons_append, List.cons.injEq] at h2
  exact hne h2.1

/-- Length of a repository batch is bounded by the effective limit. -/
theorem length_take_le_effLimit (l : List Reminder) (offset limit : Int) :
    ((l.drop (effOffset offset)).take (effLimit limit)).length ≤ effLimit limit := by
  simpa using List.length_take_le (effLimit limit) (l.drop (effOffset offset))

/-- C3: for a single execution attempt, the sequence numbers assigned to
the execution-log chunks start at 0 and are strictly increasing with no
gaps: the sequence column of the emitted chunks is exactly the range
0, 1, ..., n-1 where n is the number of captured chunks. -/
theorem streamChunks_sequential (cs : List String) :
    (streamChunks 0 cs).map LogChunk.seq = List.range cs.length ∧
    List.Pairwise (fun a b => a < b) ((streamChunks 0 cs).map LogChunk.seq) := by
  have h := streamChunks_map_seq 0 cs
  rw [List.range_eq_range' cs.length]
  refine ⟨h, ?_⟩
  rw [h]
  exact List.pairwise_lt_range' 0 cs.length

/-- C10: the repository list operations substitute the default limit 10
when called with limit at most 0 and clamp a negative offset to 0, so a
caller can never request an unbounded batch: the result length is always
bounded by the effective limit. -/
theorem listQueries_bounded (tasks : List TaskInstance) (reminders : List Reminder)
    (now : Nat) (offset limit : Int) :
    (limit ≤ 0 →
      listDue tasks now offset limit = listDue tasks now offset 10 ∧
      listPending reminders offset limit = listPending reminders offset 10) ∧
    (offset < 0 →
      listDue tasks now offset limit = listDue tasks now 0 limit ∧
      listPending reminders offset limit = listPending reminders 0 limit) ∧
    (listDue tasks now offset limit).length ≤ effLimit limit ∧
    (listPending reminders offset limit).length ≤ effLimit limit := by
  refine ⟨fun hl => ?_, fun ho => ?_, ?_, ?_⟩
  · have h10 : effLimit limit = effLimit 10 := by
      simp [effLimit, hl]
    constructor
    · simp [listDue, h10]
    · simp [listPending, h10]
  · have h0 : effOffset offset = effOffset 0 := by
      simp [effOffset, ho]
    constructor
    · simp [listDue, h0]
    · simp [listPending, h0]
  · simpa [listDue] using
      List.length_take_le (effLimit limit)
        ((tasks.filter (isDuePending now)).drop (effOffset offset))
  · simpa [listPending] using
      List.length_take_le (effLimit limit)
        ((sortByChatAt (reminders.filter
          (fun r => decide (r.state = ReminderState.pending)))).drop (effOffset offset))

/-- Concrete inputs for the C10 witness. -/
def c10Tasks : List TaskInstance :=
  [{ id := 1, state := TaskState.pending, dueAt := some 3 }]

/-- Concrete reminder list for the C10 witness. -/
def c10Reminders : List Reminder :=
  [{ id := 1, taskId := 1, chatAt := 3, state := ReminderState.pending, cancelledAt := none }]

/-- Witness for C10: at limit -1 and offset -2 the substitutions fire. -/
theorem listQueries_bounded_witness :
    (listDue c10Tasks 5 (-2) (-1) = listDue c10Tasks 5 (-2) 10 ∧
      listPending c10Reminders (-2) (-1) = listPending c10Reminders (-2) 10) ∧
    (listDue c10Tasks 5 (-2) (-1) = listDue c10Tasks 5 0 (-1) ∧
      listPending c10Reminders (-2) (-1) = listPending c10Reminders 0 (-1)) ∧
    (listDue c10Tasks 5 (-2) (-1)).length ≤ effLimit (-1) :=
  ⟨(listQueries_bounded c10Tasks c10Reminders 5 (-2) (-1)).1 (by decide),
   (listQueries_bounded c10Tasks c10Reminders 5 (-2) (-1)).2.1 (by decide),
   (listQueries_bounded c10Tasks c10Reminders 5 (-2) (-1)).2.2.1⟩

/-- Registry record of an in-flight execution, used by the C2 failing
input: task t1 is still running on the agent. -/
def c2Running : AgentTask :=
  { id := "t1", script := "sleep 60", params := [], status := "running"
    startTime := 3, endTime := none, exitCode := 0, error := ""
    hasCancel := true, cancelFired := false }

/-- C2: evaluation of the failing input of the duplicate-dispatch claim.
Agent.ExecuteTask performs no duplicate check: a second call with the
taskID of a record that is still running returns ok (nil error, no
conflict) and silently overwrites the running record in the registry with
a fresh one built from the second request. -/
theorem executeTask_accepts_duplicate :
    executeTask [("t1", c2Running)] "t1" "echo second" [] 0 9 =
      Except.ok [("t1",
        { id := "t1", script := "echo second", params := [], status := "running"
          startTime := 9, endTime := none, exitCode := 0, error := ""
          hasCancel := true, cancelFired := false })] := by
  rfl

/-- Registry record used by the C8 failing input: the fresh record stored
by ExecuteTask before its asynchronous body runs. -/
def c8Task : AgentTask :=
  { id := "t8", script := "echo hi", params := [], status := "running"
    startTime := 2, endTime := none, exitCode := 0, error := ""
    hasCancel := true, cancelFired := false }

/-- Environment of the C8 failing input: the working directory is created
but writing the script file fails. -/
def c8Env : ExecEnv :=
  { mkdirErr := none, writeErr := some "disk full", stdoutPipeErr := none
    stderrPipeErr := none, startErr := none, waitErr := none }

/-- C8: evaluation of the failing input of the cleanup claim. When writing
the script file fails, the asynchronous body of ExecuteTask returns early:
the per-task working directory was created but os.RemoveAll is never
reached, so the directory is not removed although the task ended (failed).
Cleanup happens only on the final path, after the process was started. -/
theorem runTaskBody_workdir_leak :
    (runTaskBody c8Task c8Env 9).dirCreated = true ∧
    (runTaskBody c8Task c8Env 9).dirRemoved = false ∧
    (runTaskBody c8Task c8Env 9).task.status = "failed" := by
  decide

/-- Scheduler state of the C9 failing input: task 1 already finished in the
terminal state completed. -/
def c9State : SchedState :=
  { tasks := [{ id := 1, state := TaskState.completed, dueAt := none }]
    reminders := [], nextReminderId := 1, chatCalls := [] }

/-- C9: evaluation of the failing input of the terminal-state claim.
Scheduler.CancelTask saves the task with state cancelled without checking
the current state, so a task already in the terminal state completed is
moved to cancelled, contradicting the claim that cancellation never moves
a task out of Completed or Failed. -/
theorem schedCancelTask_from_completed :
    schedCancelTask c9State 7 1 =
      some { c9State with
        tasks := [{ id := 1, state := TaskState.cancelled, dueAt := none }] } := by
  decide

/-- Scheduler state of the C7 failing input: one reminder of task 1 in
state pending whose chat_at has elapsed. -/
def c7State : SchedState :=
  { tasks := [{ id := 1, state := TaskState.scheduled, dueAt := some 3 }]
    reminders := [{ id := 1, taskId := 1, chatAt := 3
                    state := ReminderState.pending, cancelledAt := none }]
    nextReminderId := 2, chatCalls := [] }

/-- C7: evaluation of the failing input of the reminder-delivery claim.
One tick of the reminder loop at time 5 transitions the due pending
reminder to delivered, but the observation log of the ChatOps collaborator
stays empty: sendReminder in scheduler.go holds only a TODO comment where
the interactive message would be sent, so no ChatOps invocation happens. -/
theorem checkDueReminders_delivers_without_chatops :
    (checkDueReminders c7State 5 10).reminders.map Reminder.state =
      [ReminderState.delivered] ∧
    (checkDueReminders c7State 5 10).chatCalls = [] := by
  decide

/-- Scheduler state of the C6 counterexample: task 1 has a single reminder
in the non-terminal state delivered. -/
def c6State : SchedState :=
  { tasks := [{ id := 1, state := TaskState.scheduled, dueAt := some 0 }]
    reminders := [{ id := 1, taskId := 1, chatAt := 0
                    state := ReminderState.delivered, cancelledAt := none }]
    nextReminderId := 2, chatCalls := [] }

/-- C6 counterexample: cancelling task 1 leaves its delivered reminder in
state delivered with no cancellation timestamp, although delivered is a
non-terminal reminder state, so the claim that every Pending or Delivered
reminder of the task ends cancelled is false on this input. -/
theorem schedCancelTask_leaves_delivered :
    schedCancelTask c6State 9 1 =
      some { c6State with
        tasks := [{ id := 1, state := TaskState.cancelled, dueAt := some 0 }] } := by
  decide

/-- Predicate over the execution environment: some infrastructure step
(workspace creation, script write, pipe creation, process start) failed. -/
def infraFailed (env : ExecEnv) : Bool :=
  env.mkdirErr.isSome || env.writeErr.isSome || env.stdoutPipeErr.isSome ||
    env.stderrPipeErr.isSome || env.startErr.isSome

/-- C4: process exit code 0 marks the task completed; a non-zero exit code
marks it failed with that exit code recorded in the record together with
the script-failure message carrying the code; and failure of any
infrastructure step (creating the workspace, writing the script, creating
the output pipes, starting the process) marks the task failed with an
error message that is never equal to a script-failure message, whatever
exit code the latter would carry — the infrastructure tag is distinct from
a script failure. -/
theorem runTaskBody_exit_semantics (t : AgentTask) (env : ExecEnv) (endNow : Nat) :
    (infraFailed env = false →
      ((waitExitCode env.waitErr = 0 →
        (runTaskBody t env endNow).task.status = "completed" ∧
        (runTaskBody t env endNow).task.exitCode = 0) ∧
       (waitExitCode env.waitErr ≠ 0 →
        (runTaskBody t env endNow).task.status = "failed" ∧
        (runTaskBody t env endNow).task.exitCode = waitExitCode env.waitErr ∧
        (runTaskBody t env endNow).task.error =
          "Command exited with code " ++ toString (waitExitCode env.waitErr)))) ∧
    (infraFailed env = true →
      (runTaskBody t env endNow).task.status = "failed" ∧
      (runTaskBody t env endNow).task.exitCode = 1 ∧
      ∀ c : Int, (runTaskBody t env endNow).task.error ≠
        "Command exited with code " ++ toString c) := by
  obtain ⟨m, w, so, se, st, wa⟩ := env
  refine ⟨fun hinfra => ?_, fun hinfra => ?_⟩
  · cases m <;> cases w <;> cases so <;> cases se <;> cases st
    · refine ⟨fun h0 => ?_, fun hne => ?_⟩ <;> simp [runTaskBody, *]
    all_goals simp [infraFailed] at hinfra
  · cases m <;> cases w <;> cases so <;> cases se <;> cases st
    · simp [infraFailed] at hinfra
    all_goals exact ⟨rfl, rfl, fun c =>
      string_append_ne_of_head _ _ _ _ 'F' 'C' _ _ rfl rfl (by decide)⟩

/-- Environment of the C4 witness, script-failure leg: every infrastructure
step succeeds and the process exits with code 3. -/
def c4EnvScript : ExecEnv :=
  { mkdirErr := none, writeErr := none, stdoutPipeErr := none
    stderrPipeErr := none, startErr := none, waitErr := some (some 3) }

/-- Environment of the C4 witness, success leg: everything succeeds. -/
def c4EnvOk : ExecEnv :=
  { mkdirErr := none, writeErr := none, stdoutPipeErr := none
    stderrPipeErr := none, startErr := none, waitErr := none }

/-- Environment of the C4 witness, infrastructure leg: the process cannot
be started. -/
def c4EnvInfra : ExecEnv :=
  { mkdirErr := none, writeErr := none, stdoutPipeErr := none
    stderrPipeErr := none, startErr := some "no such interpreter", waitErr := none }

/-- Witness for C4 at concrete environments: exit 0 completes, exit 3
fails with code 3 recorded, and a start failure is tagged failed. -/
theorem runTaskBody_exit_semantics_witness :
    ((runTaskBody c8Task c4EnvOk 9).task.status = "completed" ∧
      (runTaskBody c8Task c4EnvOk 9).task.exitCode = 0) ∧
    ((runTaskBody c8Task c4EnvScript 9).task.status = "failed" ∧
      (runTaskBody c8Task c4EnvScript 9).task.exitCode = waitExitCode c4EnvScript.waitErr ∧
      (runTaskBody c8Task c4EnvScript 9).task.error =
        "Command exited with code " ++ toString (waitExitCode c4EnvScript.waitErr)) ∧
    ((runTaskBody c8Task c4EnvInfra 9).task.status = "failed" ∧
      (runTaskBody c8Task c4EnvInfra 9).task.exitCode = 1) :=
  ⟨((runTaskBody_exit_semantics c8Task c4EnvOk 9).1 (by decide)).1 (by decide),
   ((runTaskBody_exit_semantics c8Task c4EnvScript 9).1 (by decide)).2 (by decide),
   ⟨((runTaskBody_exit_semantics c8Task c4EnvInfra 9).2 (by decide)).1,
    ((runTaskBody_exit_semantics c8Task c4EnvInfra 9).2 (by decide)).2.1⟩⟩

/-- Keyed replacement inside the registry only changes what the key lookup
returns for that key. -/
theorem find?_map_keyed (reg : Registry) (k : String) (v : AgentTask) :
    List.find? (fun p => p.1 = k)
        (reg.map (fun p => if p.1 = k then (k, v) else p)) =
      (List.find? (fun p => p.1 = k) reg).map (fun _ => (k, v)) := by
  induction reg with
  | nil => simp
  | cons p reg ih =>
    by_cases hp : p.1 = k
    · simp only [List.map_cons, if_pos hp, List.find?_cons]
      simp [hp]
    · simp only [List.map_cons, if_neg hp, List.find?_cons]
      simp [hp, ih]

/-- Keyed replacement under key k is invisible to a lookup of a different
key. -/
theorem find?_map_keyed_other (reg : Registry) (k : String) (v : AgentTask)
    (k' : String) (hne : k' ≠ k) :
    List.find? (fun p => p.1 = k')
        (reg.map (fun p => if p.1 = k then (k, v) else p)) =
      List.find? (fun p => p.1 = k') reg := by
  have hk : ¬ (k = k') := fun h => hne h.symm
  induction reg with
  | nil => simp
  | cons p reg ih =>
    by_cases hp : p.1 = k
    · have hpk : ¬ (p.1 = k') := by rw [hp]; exact hk
      simp only [List.map_cons, if_pos hp, List.find?_cons]
      simp [hk, hpk, ih]
    · by_cases hp' : p.1 = k'
      · simp only [List.map_cons, if_neg hp, List.find?_cons]
        simp [hp']
      · simp only [List.map_cons, if_neg hp, List.find?_cons]
        simp [hp', ih]

/-- Lookup after assignment under the same key returns the new record. -/
theorem regLookup_regInsert_self (reg : Registry) (k : String) (v : AgentTask) :
    regLookup (regInsert reg k v) k = some v := by
  unfold regInsert regLookup
  by_cases h : (List.find? (fun p => p.1 = k) reg).isSome
  · rw [if_pos h, find?_map_keyed]
    obtain ⟨p, hp⟩ := Option.isSome_iff_exists.mp h
    rw [hp]
    rfl
  · have hn : List.find? (fun p => p.1 = k) reg = none :=
      Option.not_isSome_iff_eq_none.mp h
    rw [if_neg h, List.find?_append, hn]
    simp [List.find?]

/-- Lookup of another key is unchanged by the assignment. -/
theorem regLookup_regInsert_other (reg : Registry) (k : String) (v : AgentTask)
    (k' : String) (hne : k' ≠ k) :
    regLookup (regInsert reg k v) k' = regLookup reg k' := by
  have hk : ¬ (k = k') := fun hkk => hne hkk.symm
  unfold regInsert regLookup
  by_cases h : (List.find? (fun p => p.1 = k) reg).isSome
  · rw [if_pos h, find?_map_keyed_other reg k v k' hne]
  · rw [if_neg h, List.find?_append]
    cases hfind : List.find? (fun p => p.1 = k') reg <;> simp [hk]

/-- C5: calling the agent CancelTask with an unknown taskID, or on a task
whose status is not running, returns the corresponding error and leaves
the registry (hence any task record) unchanged; on a running task it
returns ok, triggers the stored cancellation handle, and rewrites the
record to status cancelled with the end time and the cancelled-by-user
error string recorded — without waiting for the underlying process, whose
exit does not appear anywhere in the cancellation path. Records under
other task identifiers are untouched. -/
theorem agentCancelTask_semantics (reg : Registry) (taskID : String) (now : Nat) :
    (regLookup reg taskID = none →
      agentCancelTask reg taskID now =
        (Except.error ("task not found: " ++ taskID), reg)) ∧
    (∀ t, regLookup reg taskID = some t → t.status ≠ "running" →
      agentCancelTask reg taskID now =
        (Except.error ("task is not running: " ++ taskID), reg)) ∧
    (∀ t, regLookup reg taskID = some t → t.status = "running" →
      (agentCancelTask reg taskID now).1 = Except.ok () ∧
      regLookup (agentCancelTask reg taskID now).2 taskID =
        some { t with
          cancelFired := if t.hasCancel then true else t.cancelFired
          status := "cancelled"
          endTime := some now
          error := "Task cancelled by user" } ∧
      (∀ k, k ≠ taskID →
        regLookup (agentCancelTask reg taskID now).2 k = regLookup reg k)) := by
  refine ⟨fun h => ?_, fun t ht hs => ?_, fun t ht hs => ?_⟩
  · simp [agentCancelTask, h]
  · simp [agentCancelTask, ht, hs]
  · have hcond : ¬ (t.status ≠ "running") := by simp [hs]
    simp only [agentCancelTask, ht, if_neg hcond]
    refine ⟨by trivial, ?_, fun k hk => ?_⟩
    · simp [regLookup_regInsert_self]
    · simp [regLookup_regInsert_other reg taskID _ k hk]

/-- Record of the C5 witness: task a is running. -/
def c5A : AgentTask :=
  { id := "a", script := "s", params := [], status := "running"
    startTime := 1, endTime := none, exitCode := 0, error := ""
    hasCancel := true, cancelFired := false }

/-- Record of the C5 witness: task b has completed. -/
def c5B : AgentTask :=
  { id := "b", script := "s", params := [], status := "completed"
    startTime := 1, endTime := some 2, exitCode := 0, error := ""
    hasCancel := true, cancelFired := false }

/-- Registry of the C5 witness: task a is running, task b has completed. -/
def c5Reg : Registry := [("a", c5A), ("b", c5B)]

/-- Witness for C5 at the concrete registry: unknown id errors with the
registry unchanged, a completed task errors with the registry unchanged,
and the running task is cancelled with the handle fired. -/
theorem agentCancelTask_semantics_witness :
    agentCancelTask c5Reg "zz" 9 =
      (Except.error ("task not found: " ++ "zz"), c5Reg) ∧
    agentCancelTask c5Reg "b" 9 =
      (Except.error ("task is not running: " ++ "b"), c5Reg) ∧
    (agentCancelTask c5Reg "a" 9).1 = Except.ok () ∧
    regLookup (agentCancelTask c5Reg "a" 9).2 "a" =
      some { id := "a", script := "s", params := [], status := "cancelled"
             startTime := 1, endTime := some 9, exitCode := 0
             error := "Task cancelled by user", hasCancel := true
             cancelFired := true } :=
  ⟨(agentCancelTask_semantics c5Reg "zz" 9).1 (by decide),
   (agentCancelTask_semantics c5Reg "b" 9).2.1 c5B (by decide) (by decide),
   ((agentCancelTask_semantics c5Reg "a" 9).2.2 c5A (by decide) (by decide)).1,
   by
    have h := ((agentCancelTask_semantics c5Reg "a" 9).2.2 c5A (by decide) (by decide)).2.1
    simpa [c5A] using h⟩

/-- Lookup by id fails on a list that does not carry the id. -/
theorem find?_id_eq_none_of_not_mem (S : List Reminder) (v : Nat)
    (hv : v ∉ S.map Reminder.id) :
    S.find? (fun r => r.id = v) = none := by
  apply List.find?_eq_none.mpr
  intro y hy
  simp only [decide_eq_true_eq]
  intro h
  exact hv (h ▸ List.mem_map_of_mem Reminder.id hy)

/-- Under unique reminder ids, a save loop that walks a sublist S of
reminders and rewrites the record with the matching primary key (the
pattern of the reminder loop in Scheduler.CancelTask) equals a pointwise
map over the whole table. -/
theorem foldl_keyed_update_eq_map (p : Reminder → Prop) [DecidablePred p]
    (u : Reminder → Reminder) (hid : ∀ r, (u r).id = r.id)
    (S acc : List Reminder) (hS : (S.map Reminder.id).Nodup) :
    S.foldl (fun acc r => if p r then reminderUpdate acc (u r) else acc) acc =
      acc.map (fun x =>
        match S.find? (fun r => r.id = x.id) with
        | some r => if p r then u r else x
        | none => x) := by
  induction S generalizing acc with
  | nil => simp
  | cons r S ih =>
    rw [List.map_cons, List.nodup_cons] at hS
    obtain ⟨hrid, hSnodup⟩ := hS
    rw [List.foldl_cons, ih _ hSnodup]
    have hpred : (fun r0 : Reminder => decide (r0.id = (u r).id)) =
        (fun r0 : Reminder => decide (r0.id = r.id)) :=
      funext fun r0 => by rw [hid r]
    by_cases hp : p r
    · rw [if_pos hp]
      unfold reminderUpdate
      rw [List.map_map]
      refine congrArg (fun f => List.map f acc) (funext fun x => ?_)
      simp only [Function.comp_apply]
      by_cases hx : x.id = r.id
      · rw [if_pos (show x.id = (u r).id by rw [hid r]; exact hx)]
        have h1 : decide (r.id = x.id) = true := by simp [hx]
        simp only [List.find?_cons, h1, hpred,
          find?_id_eq_none_of_not_mem S r.id hrid, if_pos hp]
      · rw [if_neg (show ¬ x.id = (u r).id by rw [hid r]; exact hx)]
        have h1 : decide (r.id = x.id) = false := by
          simp only [decide_eq_false_iff_not]
          exact fun h => hx h.symm
        simp only [List.find?_cons, h1]
    · rw [if_neg hp]
      refine congrArg (fun f => List.map f acc) (funext fun x => ?_)
      by_cases hx : r.id = x.id
      · have h1 : decide (r.id = x.id) = true := by simp [hx]
        simp only [List.find?_cons, h1, if_neg hp,
          find?_id_eq_none_of_not_mem S x.id (hx ▸ hrid)]
      · have h1 : decide (r.id = x.id) = false := by simp [hx]
        simp only [List.find?_cons, h1]

/-- Under unique ids, lookup by the id of a member inside a filtered list
finds exactly that member when it passes the filter. -/
theorem find?_id_filter (l : List Reminder) (p : Reminder → Bool)
    (x : Reminder) (hnodup : (l.map Reminder.id).Nodup) (hx : x ∈ l) :
    (l.filter p).find? (fun r => r.id = x.id) =
      if p x then some x else none := by
  induction l with
  | nil => cases hx
  | cons a l ih =>
    rw [List.map_cons, List.nodup_cons] at hnodup
    obtain ⟨haid, hln⟩ := hnodup
    rcases List.mem_cons.mp hx with hxa | hxl
    · subst hxa
      by_cases hpa : p x = true
      · rw [List.filter_cons, if_pos hpa, List.find?_cons]
        simp [hpa]
      · rw [List.filter_cons, if_neg hpa]
        rw [find?_id_eq_none_of_not_mem _ x.id (fun hmem =>
          haid ((List.Sublist.map Reminder.id (List.filter_sublist l)).mem hmem))]
        simp [hpa]
    · have hIH := ih hln hxl
      have hne : ¬ (a.id = x.id) :=
        fun hax => haid (hax ▸ List.mem_map_of_mem Reminder.id hxl)
      by_cases hpa : p a = true
      · rw [List.filter_cons, if_pos hpa, List.find?_cons]
        simp [hne, hIH]
      · rw [List.filter_cons, if_neg hpa]
        exact hIH

/-- C6 amended: when the table of reminders carries unique primary keys,
cancelling a task cancels exactly the Pending reminders of that task —
each gets state cancelled and the cancellation timestamp — while every
other reminder of the task, the non-terminal Delivered ones included, and
every reminder of other tasks are left unchanged. -/
theorem schedCancelTask_cancels_pending (s : SchedState) (now taskID : Nat)
    (s1 : SchedState) (hnodup : (s.reminders.map Reminder.id).Nodup)
    (h : schedCancelTask s now taskID = some s1) :
    s1.reminders = s.reminders.map (fun r =>
      if r.taskId = taskID ∧ r.state = ReminderState.pending then
        { r with state := ReminderState.cancelled, cancelledAt := some now }
      else r) := by
  unfold schedCancelTask at h
  cases hget : getTaskByID s.tasks taskID with
  | none =>
    rw [hget] at h
    exact absurd h (by simp)
  | some task =>
    rw [hget] at h
    have hs1 := (Option.some.inj h).symm
    have hrem : s1.reminders =
        (listByTaskID s.reminders taskID).foldl
          (fun acc r =>
            if r.state = ReminderState.pending then
              reminderUpdate acc
                { r with state := ReminderState.cancelled, cancelledAt := some now }
            else acc) s.reminders := by
      rw [hs1]
    have hsub : ((listByTaskID s.reminders taskID).map Reminder.id).Nodup :=
      (List.Sublist.map Reminder.id (List.filter_sublist s.reminders)).nodup hnodup
    rw [hrem]
    rw [foldl_keyed_update_eq_map (fun r => r.state = ReminderState.pending)
      (fun r => { r with state := ReminderState.cancelled, cancelledAt := some now })
      (fun r => rfl) _ _ hsub]
    apply List.map_congr_left
    intro x hx
    have hfind := find?_id_filter s.reminders
      (fun r => decide (r.taskId = taskID)) x hnodup hx
    rw [show listByTaskID s.reminders taskID =
      s.reminders.filter (fun r => decide (r.taskId = taskID)) from rfl]
    rw [hfind]
    by_cases hpx : x.taskId = taskID
    · by_cases hps : x.state = ReminderState.pending
      · simp [hpx, hps]
      · simp [hpx, hps]
    · simp [hpx]

/-- Scheduler state of the C6 witness: task 1 owns one pending and one
delivered reminder; a reminder of task 2 is also present. -/
def c6wState : SchedState :=
  { tasks := [{ id := 1, state := TaskState.scheduled, dueAt := some 0 }]
    reminders :=
      [{ id := 1, taskId := 1, chatAt := 0, state := ReminderState.pending, cancelledAt := none },
       { id := 2, taskId := 1, chatAt := 0, state := ReminderState.delivered, cancelledAt := none },
       { id := 3, taskId := 2, chatAt := 0, state := ReminderState.pending, cancelledAt := none }]
    nextReminderId := 4, chatCalls := [] }

/-- Result state of the C6 witness run. -/
def c6wResult : SchedState :=
  { tasks := [{ id := 1, state := TaskState.cancelled, dueAt := some 0 }]
    reminders :=
      [{ id := 1, taskId := 1, chatAt := 0, state := ReminderState.cancelled, cancelledAt := some 9 },
       { id := 2, taskId := 1, chatAt := 0, state := ReminderState.delivered, cancelledAt := none },
       { id := 3, taskId := 2, chatAt := 0, state := ReminderState.pending, cancelledAt := none }]
    nextReminderId := 4, chatCalls := [] }

/-- Witness for the amended C6 at the concrete state: the pending reminder
of task 1 is cancelled with timestamp 9, the delivered one and the
reminder of task 2 stay unchanged. -/
theorem schedCancelTask_cancels_pending_witness :
    (c6wState.reminders.map Reminder.id).Nodup ∧
    c6wResult.reminders = c6wState.reminders.map (fun r =>
      if r.taskId = 1 ∧ r.state = ReminderState.pending then
        { r with state := ReminderState.cancelled, cancelledAt := some 9 }
      else r) :=
  ⟨by decide,
   schedCancelTask_cancels_pending c6wState 9 1 c6wResult (by decide) (by decide)⟩

/-- Each step of the due-task loop appends exactly one pending reminder
with chat_at set to now for the processed task snapshot. -/
theorem foldl_createReminder_reminders (now : Nat) (L : List TaskInstance)
    (s : SchedState) :
    (L.foldl (createReminder now) s).reminders.map
        (fun r => (r.taskId, r.chatAt, r.state)) =
      s.reminders.map (fun r => (r.taskId, r.chatAt, r.state)) ++
        L.map (fun t => (t.id, now, ReminderState.pending)) := by
  induction L generalizing s with
  | nil => simp
  | cons t L ih =>
    rw [List.foldl_cons, ih]
    simp [createReminder]

/-- Membership after the due-task loop: every task row either survives
untouched with an id outside the processed batch, or is the scheduled
version of a processed snapshot. -/
theorem foldl_createReminder_tasks_mem (now : Nat) (L : List TaskInstance)
    (s : SchedState) (u : TaskInstance)
    (hu : u ∈ (L.foldl (createReminder now) s).tasks) :
    (u ∈ s.tasks ∧ ∀ t ∈ L, t.id ≠ u.id) ∨
      (∃ t ∈ L, u = { t with state := TaskState.scheduled }) := by
  induction L generalizing s with
  | nil =>
    rw [List.foldl_nil] at hu
    exact Or.inl ⟨hu, by simp⟩
  | cons t L ih =>
    rw [List.foldl_cons] at hu
    rcases ih (createReminder now s t) hu with ⟨hmem, hids⟩ | ⟨t', ht', hEq⟩
    · have hmem' : u ∈ taskUpdate s.tasks { t with state := TaskState.scheduled } := by
        simpa [createReminder] using hmem
      rcases List.mem_map.mp hmem' with ⟨t0, ht0, hf⟩
      by_cases hid : t0.id = ({ t with state := TaskState.scheduled } : TaskInstance).id
      · right
        refine ⟨t, List.mem_cons_self t L, ?_⟩
        rw [← hf, if_pos hid]
      · left
        have hu0 : u = t0 := by rw [← hf, if_neg hid]
        subst hu0
        refine ⟨ht0, fun t'' ht'' => ?_⟩
        rcases List.mem_cons.mp ht'' with h | h
        · subst h
          exact fun hEq => hid hEq.symm
        · exact hids t'' h
    · exact Or.inr ⟨t', List.mem_cons_of_mem t ht', hEq⟩

/-- C1: when the batch limit covers all currently due pending tasks, one
run of the due-task loop creates exactly one new Reminder per due task —
state pending, chat_at equal to now, in batch order — and leaves every
task whose id matches a due pending task in state scheduled; a second run
of the loop on the resulting state is a no-op (in particular it creates no
duplicate reminders), because the due query selects only pending tasks and
none are left due. -/
theorem checkDueTasks_correct (s : SchedState) (now : Nat) (limit : Int)
    (hcount : (s.tasks.filter (isDuePending now)).length ≤ effLimit limit) :
    ((checkDueTasks s now limit).reminders.map
        (fun r => (r.taskId, r.chatAt, r.state)) =
      s.reminders.map (fun r => (r.taskId, r.chatAt, r.state)) ++
        (s.tasks.filter (isDuePending now)).map
          (fun t => (t.id, now, ReminderState.pending))) ∧
    (∀ t ∈ s.tasks, isDuePending now t = true →
      ∀ u ∈ (checkDueTasks s now limit).tasks, u.id = t.id →
        u.state = TaskState.scheduled) ∧
    checkDueTasks (checkDueTasks s now limit) now limit =
      checkDueTasks s now limit := by
  have hL : listDue s.tasks now 0 limit = s.tasks.filter (isDuePending now) := by
    unfold listDue
    rw [show effOffset 0 = 0 from rfl, List.drop_zero, List.take_of_length_le hcount]
  refine ⟨?_, ?_, ?_⟩
  · show ((listDue s.tasks now 0 limit).foldl (createReminder now) s).reminders.map _ = _
    rw [hL]
    exact foldl_createReminder_reminders now _ s
  · intro t ht hdue u hu hid
    rcases foldl_createReminder_tasks_mem now _ s u hu with ⟨hmem, hids⟩ | ⟨t', ht', hEq⟩
    · exfalso
      have htL : t ∈ listDue s.tasks now 0 limit := by
        rw [hL]
        exact List.mem_filter.mpr ⟨ht, hdue⟩
      exact hids t htL hid.symm
    · rw [hEq]
  · have hnone : (checkDueTasks s now limit).tasks.filter (isDuePending now) = [] := by
      rw [List.filter_eq_nil_iff]
      intro u hu
      rcases foldl_createReminder_tasks_mem now _ s u hu with ⟨hmem, hids⟩ | ⟨t', ht', hEq⟩
      · intro hdue
        have huL : u ∈ listDue s.tasks now 0 limit := by
          rw [hL]
          exact List.mem_filter.mpr ⟨hmem, hdue⟩
        exact hids u huL rfl
      · rw [hEq]
        simp [isDuePending]
    show (listDue (checkDueTasks s now limit).tasks now 0 limit).foldl
        (createReminder now) (checkDueTasks s now limit) = checkDueTasks s now limit
    unfold listDue
    rw [hnone]
    simp

/-- Scheduler state of the C1 witness: one pending task due at 3. -/
def c1State : SchedState :=
  { tasks := [{ id := 1, state := TaskState.pending, dueAt := some 3 }]
    reminders := [], nextReminderId := 1, chatCalls := [] }

/-- Witness for C1 at time 5 with batch limit 10: the batch covers the one
due task, one pending reminder with chat_at 5 appears, and a second run
changes nothing. -/
theorem checkDueTasks_correct_witness :
    (c1State.tasks.filter (isDuePending 5)).length ≤ effLimit 10 ∧
    ((checkDueTasks c1State 5 10).reminders.map
        (fun r => (r.taskId, r.chatAt, r.state)) =
      c1State.reminders.map (fun r => (r.taskId, r.chatAt, r.state)) ++
        (c1State.tasks.filter (isDuePending 5)).map
          (fun t => (t.id, 5, ReminderState.pending))) ∧
    checkDueTasks (checkDueTasks c1State 5 10) 5 10 = checkDueTasks c1State 5 10 :=
  ⟨by decide,
   (checkDueTasks_correct c1State 5 10 (by decide)).1,
   (checkDueTasks_correct c1State 5 10 (by decide)).2.2⟩
